import Mathlib

/-!
# Verification of the fishing-forecast bot's intent/location core

This file gives a shallow embedding, in Lean 4, of the natural-language
intent/slot extraction pipeline and of the location-resolution logic of the
fishing-forecast bot:

* `src/morph_analyzer.py` — `MorphAnalyzer.to_nominative`
* `src/intent_analyzer.py` — `IntentAnalyzer.analyze`, `_contains_any`,
  `_extract_location`, `_extract_time_period`
* `src/location_resolver.py` — `LocationResolver.resolve_location`,
  `_find_best_match`, `_clean_location_query`, `_format_location_result`,
  `_get_location_type`

Python strings are modelled as `List Char` (`Str`).  Python string
primitives used by the code (`lower`, `upper`, `capitalize`, `isupper`,
`strip`, `split`, the `in` substring test) are modelled for the Latin and
Cyrillic alphabets the program manipulates.  The external pymorphy3
morphological analyzer is a parameter (`MorphOracle`), and the external
OpenWeather geocoding HTTP capability is a parameter (`GeoProvider`); a
raised exception is modelled with `Except`, and the `try`/`except` blocks
of the source as the corresponding handlers.
-/

/-- Python strings are modelled as lists of characters. -/
abbrev Str := List Char

/-- The character list of a Lean string literal. -/
def chars (s : String) : Str := s.data

/-- The whitespace characters recognized by Python's `str.split()` /
`str.strip()` (the ASCII ones; the program's inputs use only these). -/
def wsChars : List Char := [' ', '\t', '\n', '\r', '\x0B', '\x0C']

/-- Is `c` whitespace in the sense of Python `str.split()`? -/
def isWsChar (c : Char) : Bool := wsChars.contains c

/-- Is `c` an ASCII decimal digit (the regex class `\d` on the program's
inputs)? -/
def isDigitChar (c : Char) : Bool := 48 ≤ c.toNat && c.toNat ≤ 57

/-- Numeric value of a digit string, as Python `int(...)` computes it on a
string of decimal digits. -/
def digitsVal (ds : Str) : Nat := ds.foldl (fun a c => 10 * a + (c.toNat - 48)) 0

/-- Python `str.lower` on the code point of a single character, for the
Latin letters (65–90 are `A`–`Z`) and Cyrillic letters (1040–1071 are
`А`–`Я`, 1025 is `Ё`); all other code points are unchanged. -/
def lowerNat (n : Nat) : Nat :=
  if 65 ≤ n ∧ n ≤ 90 then n + 32
  else if 1040 ≤ n ∧ n ≤ 1071 then n + 32
  else if n = 1025 then 1105
  else n

/-- Python `str.upper` on the code point of a single character, for the
Latin letters (97–122 are `a`–`z`) and Cyrillic letters (1072–1103 are
`а`–`я`, 1105 is `ё`); all other code points are unchanged. -/
def upperNat (n : Nat) : Nat :=
  if 97 ≤ n ∧ n ≤ 122 then n - 32
  else if 1072 ≤ n ∧ n ≤ 1103 then n - 32
  else if n = 1105 then 1025
  else n

/-- Python `str.lower` on a single character, for the Latin and Cyrillic
alphabets this program manipulates; all other characters are unchanged. -/
def pyLowerChar (c : Char) : Char := Char.ofNat (lowerNat c.toNat)

/-- Python `str.upper` on a single character, for the Latin and Cyrillic
alphabets this program manipulates; all other characters are unchanged. -/
def pyUpperChar (c : Char) : Char := Char.ofNat (upperNat c.toNat)

/-- The uppercase letters of the Latin and Cyrillic alphabets: the
characters on which Python's `str.isupper()` is true for the program's
inputs. -/
def upperLetters : List Char :=
  chars "ABCDEFGHIJKLMNOPQRSTUVWXYZАБВГДЕЖЗИЙКЛМНОПРСТУФХЦЧШЩЪЫЬЭЮЯЁ"

/-- Python `ch.isupper()` for a single character. -/
def pyIsUpperChar (c : Char) : Bool := upperLetters.contains c

/-- Python `str.lower()` on a whole string. -/
def pyLowerStr (s : Str) : Str := s.map pyLowerChar

/-- Python `str.capitalize()`: first character upper-cased, the rest
lower-cased. -/
def capitalizePy (s : Str) : Str :=
  match s with
  | [] => []
  | c :: rest => pyUpperChar c :: rest.map pyLowerChar

/-- Does `pre` occur at the start of `s`?  (Helper for the Python
substring test.) -/
def pyStartsWith : Str → Str → Bool
  | [], _ => true
  | _ :: _, [] => false
  | a :: as, b :: bs => a = b && pyStartsWith as bs

/-- The Python substring test `pat in s` (true for the empty pattern, as
in Python). -/
def pyIn (pat : Str) : Str → Bool
  | [] => pyStartsWith pat []
  | c :: t => pyStartsWith pat (c :: t) || pyIn pat t

/-- Remove from both ends of `s` every character belonging to `cs`:
Python `s.strip(cs)`. -/
def pyStripChars (cs : List Char) (s : Str) : Str :=
  ((s.dropWhile (fun c => cs.contains c)).reverse.dropWhile
    (fun c => cs.contains c)).reverse

/-- Python `s.strip()` (whitespace strip). -/
def pyStripWs (s : Str) : Str := pyStripChars wsChars s

/-- Python `s.strip(' ,.!?;:')` as used by the location extractor. -/
def pyStripPunct (s : Str) : Str := pyStripChars (chars " ,.!?;:") s

/-- Helper for `pySplitWs`: walk the string keeping the (reversed)
characters of the token currently being read in `cur`. -/
def pySplitWsAux (cur : Str) : Str → List Str
  | [] => if cur.isEmpty then [] else [cur.reverse]
  | c :: t =>
    if isWsChar c then
      if cur.isEmpty then pySplitWsAux [] t
      else cur.reverse :: pySplitWsAux [] t
    else pySplitWsAux (c :: cur) t

/-- Python `s.split()`: split on runs of whitespace, no empty tokens. -/
def pySplitWs (s : Str) : List Str := pySplitWsAux [] s

/-- Python `' '.join(words)`. -/
def joinSpace (ws : List Str) : Str := List.intercalate (chars " ") ws

theorem isValidCharNat_toNat (c : Char) : Nat.isValidChar c.toNat := by
  rcases c.valid with h | ⟨h1, h2⟩
  · left
    exact h
  · right
    exact ⟨h1, h2⟩

theorem lowerNat_valid {n : Nat} (h : Nat.isValidChar n) :
    Nat.isValidChar (lowerNat n) := by
  rcases h with h | ⟨h1, h2⟩ <;>
    (unfold lowerNat; split_ifs <;> first | (left; omega) | (right; omega))

theorem upperNat_valid {n : Nat} (h : Nat.isValidChar n) :
    Nat.isValidChar (upperNat n) := by
  rcases h with h | ⟨h1, h2⟩ <;>
    (unfold upperNat; split_ifs <;> first | (left; omega) | (right; omega))

theorem toNat_ofNat_valid {n : Nat} (h : Nat.isValidChar n) :
    (Char.ofNat n).toNat = n := by
  rw [Char.ofNat, dif_pos h]; rfl

theorem toNat_pyLowerChar (c : Char) :
    (pyLowerChar c).toNat = lowerNat c.toNat :=
  toNat_ofNat_valid (lowerNat_valid (isValidCharNat_toNat c))

theorem toNat_pyUpperChar (c : Char) :
    (pyUpperChar c).toNat = upperNat c.toNat :=
  toNat_ofNat_valid (upperNat_valid (isValidCharNat_toNat c))

theorem lowerNat_upperNat (n : Nat) : lowerNat (upperNat n) = lowerNat n := by
  unfold lowerNat upperNat
  split_ifs <;> omega

theorem lowerNat_lowerNat (n : Nat) : lowerNat (lowerNat n) = lowerNat n := by
  unfold lowerNat
  split_ifs <;> omega

theorem pyLowerChar_pyUpperChar (c : Char) :
    pyLowerChar (pyUpperChar c) = pyLowerChar c := by
  apply Char.ext
  have h1 : (pyLowerChar (pyUpperChar c)).toNat = lowerNat (upperNat c.toNat) := by
    rw [toNat_pyLowerChar, toNat_pyUpperChar]
  have h2 : (pyLowerChar c).toNat = lowerNat c.toNat := toNat_pyLowerChar c
  have h3 := lowerNat_upperNat c.toNat
  have : (pyLowerChar (pyUpperChar c)).toNat = (pyLowerChar c).toNat := by omega
  exact UInt32.toNat.inj this

theorem pyLowerChar_pyLowerChar (c : Char) :
    pyLowerChar (pyLowerChar c) = pyLowerChar c := by
  apply Char.ext
  have h1 : (pyLowerChar (pyLowerChar c)).toNat = lowerNat (lowerNat c.toNat) := by
    rw [toNat_pyLowerChar, toNat_pyLowerChar]
  have h2 : (pyLowerChar c).toNat = lowerNat c.toNat := toNat_pyLowerChar c
  have h3 := lowerNat_lowerNat c.toNat
  have : (pyLowerChar (pyLowerChar c)).toNat = (pyLowerChar c).toNat := by omega
  exact UInt32.toNat.inj this

theorem pyLowerChar_of_digit {c : Char} (h : isDigitChar c = true) :
    pyLowerChar c = c := by
  apply Char.ext
  simp only [isDigitChar, Bool.and_eq_true, decide_eq_true_eq] at h
  have h1 : (pyLowerChar c).toNat = lowerNat c.toNat := toNat_pyLowerChar c
  have h2 : lowerNat c.toNat = c.toNat := by
    unfold lowerNat; split_ifs <;> omega
  exact UInt32.toNat.inj (h1.trans h2)

theorem pyLowerStr_capitalizePy (s : Str) :
    pyLowerStr (capitalizePy s) = pyLowerStr s := by
  cases s with
  | nil => rfl
  | cons c rest =>
    simp only [capitalizePy, pyLowerStr, List.map_cons, List.map_map,
      pyLowerChar_pyUpperChar, List.cons.injEq, true_and]
    exact List.map_congr_left fun x _ => by
      simp only [Function.comp_apply, pyLowerChar_pyLowerChar]

/-! ## A small regex matcher

`IntentAnalyzer._contains_any` runs `re.search` over a list of patterns.
The patterns of the `weather` and `fishing_forecast` groups use only
literal characters, character classes `[...]`, an optional class `[...]?`,
and `.*`; they are compiled here into token lists over this syntax.
`re.IGNORECASE` is passed by `_contains_any`, but `analyze` only ever
matches against the already lower-cased text and all the patterns are
lower-case, so exact-character matching is faithful. -/

inductive RTok where
  | ch (c : Char)
  | cls (cs : List Char)
  | clsOpt (cs : List Char)
  | anyStar
deriving DecidableEq

/-- Try `f` on `s` and on every suffix of `s` (the `.*` token: the
remaining pattern may resume at any later position). -/
def starAny (f : Str → Bool) : Str → Bool
  | [] => f []
  | c :: t => f (c :: t) || starAny f t

/-- Does the token list `p` match a prefix of `s`? -/
def matchToks : List RTok → Str → Bool
  | [], _ => true
  | .ch c :: ps, s =>
    match s with
    | x :: xs => x = c && matchToks ps xs
    | [] => false
  | .cls cs :: ps, s =>
    match s with
    | x :: xs => cs.contains x && matchToks ps xs
    | [] => false
  | .clsOpt cs :: ps, s =>
    (match s with
     | x :: xs => cs.contains x && matchToks ps xs
     | [] => false) || matchToks ps s
  | .anyStar :: ps, s => starAny (fun t => matchToks ps t) s

/-- `re.search(p, s)`: does `p` match starting at some position of `s`? -/
def reSearch (p : List RTok) : Str → Bool
  | [] => matchToks p []
  | c :: t => matchToks p (c :: t) || reSearch p t

/-- `IntentAnalyzer._contains_any` (src/intent_analyzer.py lines
208-213). -/
def containsAny (text : Str) (pats : List (List RTok)) : Bool :=
  pats.any (fun p => reSearch p text)

/-- Literal characters of a pattern. -/
def lit (s : String) : List RTok := s.data.map RTok.ch

/-- A character class `[...]`. -/
def cl (s : String) : RTok := .cls s.data

/-- An optional character class `[...]?`. -/
def clOpt (s : String) : RTok := .clsOpt s.data

/-- The `weather` patterns of `IntentAnalyzer.__init__` (lines 15-19). -/
def weatherPatterns : List (List RTok) :=
  [lit "погод" ++ [cl "ауе"], lit "температур" ++ [cl "ау"],
   lit "давлени" ++ [cl "ея"], lit "ветер",
   lit "влажност" ++ [cl "ьи"], lit "осадк" ++ [cl "ио"],
   lit "облачност" ++ [cl "ьи"],
   lit "солн" ++ [cl "еце"], lit "дожд" ++ [cl "ья"], lit "снег",
   lit "туман"]

/-- The `fishing_forecast` patterns of `IntentAnalyzer.__init__`
(lines 20-26). -/
def fishingPatterns : List (List RTok) :=
  [lit "клев" ++ [clOpt "ау"], lit "клюет", lit "ловится",
   lit "рыб" ++ [cl "ауы"],
   lit "прогноз" ++ [RTok.anyStar] ++ lit "клев",
   lit "клев" ++ [RTok.anyStar] ++ lit "прогноз",
   lit "мирн" ++ [cl "аой"], lit "хищн" ++ [cl "аой", clOpt "к"],
   lit "поймат" ++ [cl "ься"],
   lit "будет" ++ [RTok.anyStar] ++ lit "рыба",
   lit "рыба" ++ [RTok.anyStar] ++ lit "будет",
   lit "ловить" ++ [RTok.anyStar] ++ lit "завтра",
   lit "как" ++ [RTok.anyStar] ++ lit "клюет",
   lit "что" ++ [RTok.anyStar] ++ lit "по" ++ [RTok.anyStar] ++ lit "рыбе",
   lit "какой" ++ [RTok.anyStar] ++ lit "клев"]

/-! ## Hand-compiled scanners for the capturing regexes

`_extract_time_period` uses `на\s+ближайшие?\s+(\d+)\s+дн[еяя]` and
`на\s+(\d+)\s+дн[еяя]`, and `_extract_location` uses
`в\s+([А-ЯЁ][а-яё\-]+)` with `re.IGNORECASE`; each is compiled to a
scanner that tries the pattern at every position, leftmost first, exactly
as `re.search` does.  Greedy `\s+` / `\d+` / `[а-яё\-]+` consumption
without backtracking is faithful here because in each pattern the token
following the repetition can never match a character of the repeated
class. -/

/-- Match `\s+` at the start of `s`, returning the rest. -/
def wsPlus : Str → Option Str
  | [] => none
  | c :: t => if isWsChar c then some (t.dropWhile isWsChar) else none

/-- Match `(\d+)` at the start of `s`, returning the captured value and
the rest. -/
def digitsPlus (s : Str) : Option (Nat × Str) :=
  let ds := s.takeWhile isDigitChar
  if ds.isEmpty then none else some (digitsVal ds, s.dropWhile isDigitChar)

/-- Match `\s+(\d+)\s+дн[еяя]` at the start of `s`, returning the
captured number (the common tail of both day-count regexes). -/
def daysTail (r : Str) : Option Nat :=
  (wsPlus r).bind fun r2 =>
    (digitsPlus r2).bind fun p =>
      (wsPlus p.2).bind fun r4 =>
        match r4 with
        | 'д' :: 'н' :: c :: _ => if c = 'е' || c = 'я' then some p.1 else none
        | _ => none

/-- Match `на\s+(\d+)\s+дн[еяя]` at the start of `s`. -/
def days2At : Str → Option Nat
  | 'н' :: 'а' :: r1 => daysTail r1
  | _ => none

/-- Match `на\s+ближайшие?\s+(\d+)\s+дн[еяя]` at the start of `s`;
the optional `е` backtracks as the Python engine does. -/
def days1At : Str → Option Nat
  | 'н' :: 'а' :: r1 =>
    (wsPlus r1).bind fun r2 =>
      match r2 with
      | 'б' :: 'л' :: 'и' :: 'ж' :: 'а' :: 'й' :: 'ш' :: 'и' :: r3 =>
        (match r3 with
         | 'е' :: r4 => daysTail r4
         | _ => none).orElse fun _ => daysTail r3
      | _ => none
  | _ => none

/-- `re.search` for the plain day-count regex (leftmost match). -/
def searchDays2 : Str → Option Nat
  | [] => days2At []
  | c :: t =>
    match days2At (c :: t) with
    | some n => some n
    | none => searchDays2 t

/-- `re.search` for the `ближайшие` day-count regex (leftmost match). -/
def searchDays1 : Str → Option Nat
  | [] => days1At []
  | c :: t =>
    match days1At (c :: t) with
    | some n => some n
    | none => searchDays1 t

/-- The class `[А-ЯЁ]` under `re.IGNORECASE` (code points 1040-1071 are
`А`-`Я`, 1025 is `Ё`; ignore-case adds 1072-1103 / 1105). -/
def isCyrFirstI (c : Char) : Bool :=
  (1040 ≤ c.toNat && c.toNat ≤ 1071) || c.toNat = 1025 ||
  (1072 ≤ c.toNat && c.toNat ≤ 1103) || c.toNat = 1105

/-- The class `[а-яё\-]` under `re.IGNORECASE`. -/
def isCyrTailI (c : Char) : Bool :=
  (1072 ≤ c.toNat && c.toNat ≤ 1103) || c.toNat = 1105 ||
  (1040 ≤ c.toNat && c.toNat ≤ 1071) || c.toNat = 1025 || c = '-'

/-- Match `в\s+([А-ЯЁ][а-яё\-]+)` (ignore-case) at the start of `s`,
returning the captured group. -/
def vLocAt : Str → Option Str
  | [] => none
  | c :: r1 =>
    if c = 'в' || c = 'В' then
      match wsPlus r1 with
      | some (c1 :: r3) =>
        if isCyrFirstI c1 then
          match r3 with
          | c2 :: r4 =>
            if isCyrTailI c2 then some (c1 :: c2 :: r4.takeWhile isCyrTailI)
            else none
          | [] => none
        else none
      | _ => none
    else none

/-- `re.search` for the location regex (leftmost match, captured
group). -/
def searchVLoc : Str → Option Str
  | [] => vLocAt []
  | c :: t =>
    match vLocAt (c :: t) with
    | some r => some r
    | none => searchVLoc t

/-! ## `src/morph_analyzer.py` — `MorphAnalyzer.to_nominative`

The external pymorphy3 analyzer is modelled as an oracle giving, for a
word, either a raised exception or the parse list that
`self.morph.parse(word)` returns; of a parse only the `normal_form`
field is used. -/

/-- One pymorphy3 parse result (only the field the code reads). -/
structure MorphParse where
  normalForm : Str

/-- The external `pymorphy3.MorphAnalyzer().parse` capability. -/
def MorphOracle := Str → Except Unit (List MorphParse)

/-- The body of the `try` block of `to_nominative` (lines 12-23):
`parsed = self.morph.parse(word)[0]` (an empty parse list raises
`IndexError`), then the normal form is returned with the original
capitalization restored (`word[0]` raises `IndexError` on an empty
word). -/
def toNominativeBody (oracle : MorphOracle) (word : Str) : Except Unit Str :=
  match oracle word with
  | .error e => .error e
  | .ok [] => .error ()
  | .ok (p :: _) =>
    if pyLowerStr p.normalForm ≠ pyLowerStr word then
      match word with
      | [] => .error ()
      | c :: _ =>
        if pyIsUpperChar c then .ok (capitalizePy p.normalForm)
        else .ok p.normalForm
    else .ok word

/-- `to_nominative` with its `except` handler made explicit: the result
is always `Except.ok`, any exception of the body being converted to the
input word (line 24-25). -/
def toNominativeRun (oracle : MorphOracle) (word : Str) : Except Unit Str :=
  match toNominativeBody oracle word with
  | .ok r => .ok r
  | .error _ => .ok word

/-- `MorphAnalyzer.to_nominative` (lines 10-25). -/
def toNominative (oracle : MorphOracle) (word : Str) : Str :=
  match toNominativeBody oracle word with
  | .ok r => r
  | .error _ => word

/-! ## `src/intent_analyzer.py` — location extraction, time extraction,
`analyze` -/

/-- The `remove_words` set of `_extract_location` (lines 236-242). -/
def removeWords : List Str :=
  [chars "какая", chars "какой", chars "какое", chars "какие",
   chars "скажи", chars "подскажи", chars "покажи", chars "расскажи",
   chars "погода", chars "погоду", chars "погодка", chars "погодку",
   chars "будет", chars "есть", chars "дай", chars "дайте", chars "хочу",
   chars "нужно", chars "надо", chars "можно", chars "посмотри",
   chars "пожалуйста", chars "а", chars "и", chars "или", chars "но",
   chars "что", chars "как", chars "где", chars "когда", chars "зачем",
   chars "почему", chars "сколько"]

/-- The `end_words` set of `_extract_location` (line 245). -/
def endWords : List Str :=
  [chars "на", chars "в", chars "для", chars "по", chars "у", chars "с",
   chars "за", chars "из", chars "от", chars "до"]

/-- The interjections skipped by the capitalized-token scan (line 296). -/
def interjections : List Str :=
  [chars "ах", chars "ох", chars "эх", chars "ух"]

/-- The final capitalized-token scan of `_extract_location`
(lines 293-302): first token starting with an uppercase letter that is
longer than 2 characters and is not an interjection. -/
def fallbackScan (oracle : MorphOracle) (ws : List Str) : Option Str :=
  match ws.find? (fun w =>
    match w with
    | c :: _ =>
      pyIsUpperChar c &&
        !(decide (w.length ≤ 2) || interjections.contains (pyLowerStr w))
    | [] => false) with
  | some w => some (toNominative oracle w)
  | none => none

/-- `IntentAnalyzer._extract_location` (lines 215-304).

The local `clean_text` built from `remove_phrases` (lines 218-225) is
computed by the source but never used afterwards, so it is not modelled;
`use_morph` is always true (the `morph_analyzer` import always succeeds
in the repository), the analyzer itself being the `oracle` parameter. -/
def extractLocation (oracle : MorphOracle) (text : Str) : Option Str :=
  let words := pySplitWs text
  let resultWords := words.filterMap fun w =>
    let stripped := pyStripPunct w
    if removeWords.contains (pyLowerStr stripped) then none
    else some stripped
  if resultWords.isEmpty then none
  else
    let cleanedText := joinSpace resultWords
    let ct1 :=
      match (pySplitWs cleanedText).getLast? with
      | some lw =>
        if endWords.contains (pyLowerStr lw) then
          joinSpace (pySplitWs cleanedText).dropLast
        else cleanedText
      | none => cleanedText
    let finalWords := pySplitWs ct1
    let shortcut : Option Str :=
      match finalWords with
      | [w] =>
        match w with
        | c :: _ => if pyIsUpperChar c then some (toNominative oracle w) else none
        | [] => none
      | _ => none
    match shortcut with
    | some r => some r
    | none =>
      match searchVLoc ct1 with
      | some loc =>
        if removeWords.contains (pyLowerStr loc) then fallbackScan oracle finalWords
        else some (toNominative oracle loc)
      | none => fallbackScan oracle finalWords

/-- Decimal representation of a `Nat` (the Python f-string `{days}`). -/
def natToStr (n : Nat) : Str := (Nat.repr n).data

/-- The `period`/`days` pair built by `_extract_time_period`. -/
structure TimeInfo where
  period : Str
  days : Nat
deriving DecidableEq

/-- `IntentAnalyzer._extract_time_period` (lines 306-334): the marker
branches, then the two day-count regexes, each overriding both fields. -/
def extractTimePeriod (text : Str) : TimeInfo :=
  let base : Str × Nat :=
    if pyIn (chars "завтра") text then (chars "tomorrow", 1)
    else if pyIn (chars "послезавтра") text then (chars "day_after_tomorrow", 2)
    else if pyIn (chars "недел") text then (chars "week", 7)
    else if pyIn (chars "выходн") text then (chars "weekend", 2)
    else (chars "today", 1)
  let afterFirst : Str × Nat :=
    match searchDays1 text with
    | some n => (natToStr (min n 10) ++ chars "_days", min n 10)
    | none => base
  match searchDays2 text with
  | some n => { period := natToStr (min n 10) ++ chars "_days", days := min n 10 }
  | none => { period := afterFirst.1, days := afterFirst.2 }

/-- The result dictionary of `IntentAnalyzer.analyze`. -/
structure IntentResult where
  intent : Str
  location : Option Str
  time_period : Str
  days : Nat
  is_question : Bool
deriving DecidableEq

/-- `IntentAnalyzer.analyze` (lines 171-206): fishing patterns first,
then weather patterns; location extraction on the original-case text;
time extraction on the lower-cased text; an extracted location upgrades
an undetermined intent to `weather`; the final default is
`general_question`. -/
def analyze (oracle : MorphOracle) (text : Str) : IntentResult :=
  let textLower := pyLowerStr text
  let intent0 : Option Str :=
    if containsAny textLower fishingPatterns then some (chars "fishing_forecast")
    else if containsAny textLower weatherPatterns then some (chars "weather")
    else none
  let location := extractLocation oracle text
  let ti := extractTimePeriod textLower
  let intent1 : Option Str :=
    match intent0 with
    | some i => some i
    | none => if location.isSome then some (chars "weather") else none
  { intent := match intent1 with | some i => i | none => chars "general_question"
    location := location
    time_period := ti.period
    days := ti.days
    is_question := pyIn (chars "?") textLower }

/-! ## `src/location_resolver.py` — `LocationResolver`

A geocoding candidate is one JSON object of the provider's response
list; optional fields model absent JSON keys (`result.get(...)`).
Latitude/longitude are carried through unchanged and uninspected, as
`Float`s.  The HTTP capability is a parameter: for a search string it
either raises (network error), or returns a status code together with a
body whose JSON decoding may itself raise (malformed payload). -/

/-- One geocoding candidate, as read by the resolver:
`name`, `local_names.ru`, `lat`, `lon`, `country`, `state`. -/
structure Candidate where
  name : Option Str
  localRu : Option Str
  lat : Option Float
  lon : Option Float
  country : Option Str
  state : Option Str

/-- A provider round-trip: a raised network exception, or a response
with a status and a JSON body (whose parsing may raise). -/
inductive ProviderResp where
  | netErr
  | resp (status : Nat) (json : Except Unit (List Candidate))

/-- The external geocoding HTTP capability, keyed by the search string
`q` (the other request parameters are constants). -/
def GeoProvider := Str → ProviderResp

/-- The record built by `_format_location_result` (lines 157-169). -/
structure Loc where
  name : Str
  local_name : Str
  lat : Option Float
  lon : Option Float
  country : Str
  state : Str
  type : Str

/-- `LocationResolver._get_location_type` (lines 171-179). -/
def getLocationType (r : Candidate) : Str :=
  if pyIn (chars "район") (pyLowerStr (r.state.getD [])) then chars "district"
  else if [chars "city", chars "town", chars "village"].any
    (fun w => pyIn w (pyLowerStr (r.name.getD []))) then chars "settlement"
  else chars "unknown"

/-- `LocationResolver._format_location_result` (lines 157-169). -/
def formatLocationResult (r : Candidate) : Loc :=
  { name := r.name.getD []
    local_name := r.localRu.getD (r.name.getD [])
    lat := r.lat
    lon := r.lon
    country := r.country.getD []
    state := r.state.getD []
    type := getLocationType r }

/-- The match test of the loop of `_find_best_match` (lines 87-101): the
lower-cased query is a substring of the candidate's Russian or English
name or vice versa.  As in Python, a missing name gives the empty
string, which is a substring of everything, so such a candidate always
matches. -/
def scoresMatch (originalLower : Str) (r : Candidate) : Bool :=
  let ruName := pyLowerStr (r.localRu.getD [])
  let enName := pyLowerStr (r.name.getD [])
  pyIn originalLower ruName || pyIn originalLower enName ||
    pyIn ruName originalLower || pyIn enName originalLower

/-- `LocationResolver._find_best_match` (lines 83-107): first candidate
passing `scoresMatch`, else the first candidate of a non-empty list,
else `None`. -/
def findBestMatch (results : List Candidate) (originalQuery : Str) : Option Loc :=
  match results.find? (scoresMatch (pyLowerStr originalQuery)) with
  | some r => some (formatLocationResult r)
  | none =>
    match results with
    | [] => none
    | r :: _ => some (formatLocationResult r)

/-- `LocationResolver._clean_location_query` (lines 109-132). -/
def cleanLocationQuery (query : Str) : Str :=
  let q := pyStripWs query
  let words := pySplitWs q
  let stopStart := [chars "в", chars "на", chars "для", chars "около",
    chars "возле", chars "рядом", chars "по", chars "у", chars "с"]
  let words :=
    match words with
    | w :: rest => if stopStart.contains (pyLowerStr w) then rest else words
    | [] => words
  let stopEnd := [chars "на", chars "в", chars "для", chars "по",
    chars "у", chars "с"]
  let words :=
    match words.getLast? with
    | some w => if stopEnd.contains (pyLowerStr w) then words.dropLast else words
    | none => words
  if words.isEmpty then q else joinSpace words

/-- The `popular_with_country` table of `resolve_location`
(lines 31-35). -/
def popularWithCountry : List (Str × Str) :=
  [(chars "лида", chars "BY"), (chars "гродно", chars "BY"),
   (chars "минск", chars "BY"), (chars "москва", chars "RU"),
   (chars "санкт-петербург", chars "RU"), (chars "киев", chars "UA"),
   (chars "вильнюс", chars "LT")]

/-- The country hint after the popular-city injection of
`resolve_location` (lines 37-39): a caller-supplied hint is kept; with
no hint, a popular city's country code is looked up. -/
def effectiveHint (query : Str) (hint : Option Str) : Option Str :=
  match hint with
  | some h => some h
  | none => List.lookup (pyLowerStr (cleanLocationQuery query)) popularWithCountry

/-- The provider search string built by `resolve_location`
(lines 41-45): the cleaned query, with `,<hint>` appended when a country
hint is present. -/
def searchQuery (query : Str) (hint : Option Str) : Str :=
  match effectiveHint query hint with
  | some h => cleanLocationQuery query ++ ',' :: h
  | none => cleanLocationQuery query

/-- The body of the `try` block of `resolve_location` (lines 16-77),
paired with the list of search strings sent to the provider.

The `search_variants` list built at lines 20-28 is never read by the
source, so it is not modelled.  On a 200 response with non-empty data,
`_find_best_match` never returns `None`, but its `None` branch
(lines 67-75, the hint-less retry) is translated faithfully. -/
def resolveLocationAux (provider : GeoProvider) (query : Str)
    (hint : Option Str) : Except Unit (Option Loc) × List Str :=
  let cq := cleanLocationQuery query
  let sq := searchQuery query hint
  match provider sq with
  | .netErr => (.error (), [sq])
  | .resp status json =>
    if status = 200 then
      match json with
      | .error e => (.error e, [sq])
      | .ok data =>
        if data.isEmpty then (.ok none, [sq])
        else
          match findBestMatch data cq with
          | some bm => (.ok (some bm), [sq])
          | none =>
            match effectiveHint query hint with
            | some _ =>
              match provider cq with
              | .netErr => (.error (), [sq, cq])
              | .resp s2 j2 =>
                if s2 = 200 then
                  match j2 with
                  | .error e2 => (.error e2, [sq, cq])
                  | .ok d2 =>
                    (.ok (if d2.isEmpty then none else findBestMatch d2 cq),
                     [sq, cq])
                else (.ok none, [sq, cq])
            | none => (.ok none, [sq])
    else (.ok none, [sq])

/-- `resolve_location` with its `except` handler made explicit
(lines 79-81): the result is always `Except.ok`, any exception of the
body being converted to `None`. -/
def resolveLocationRun (provider : GeoProvider) (query : Str)
    (hint : Option Str) : Except Unit (Option Loc) :=
  match (resolveLocationAux provider query hint).1 with
  | .ok r => .ok r
  | .error _ => .ok none

/-- `LocationResolver.resolve_location` (lines 14-81). -/
def resolveLocation (provider : GeoProvider) (query : Str)
    (hint : Option Str) : Option Loc :=
  match (resolveLocationAux provider query hint).1 with
  | .ok r => r
  | .error _ => none

/-- The search strings the provider is queried with during one
`resolve_location` call, in order. -/
def resolveLocationCalls (provider : GeoProvider) (query : Str)
    (hint : Option Str) : List Str :=
  (resolveLocationAux provider query hint).2

/-! ## Fixtures shared by the witnesses -/

/-- A concrete morphological oracle: every word parses with normal form
`лида` (a well-formed, idempotent analyzer in the sense used below). -/
def constOracle : MorphOracle := fun _ => .ok [⟨chars "лида"⟩]

/-- A provider whose every request raises a network error. -/
def netErrProvider : GeoProvider := fun _ => .netErr

/-- A provider that always answers 200 with an empty candidate list. -/
def emptyProvider : GeoProvider := fun _ => .resp 200 (.ok [])

/-! ## C1 -/

/-- C1: for every utterance whose lower-cased text matches at least one
fishing-lexicon pattern and at least one weather-lexicon pattern
simultaneously, `analyze` returns intent `fishing_forecast` (the fishing
match wins the tie-break over the weather match). -/
theorem c1_fishing_overrides_weather (oracle : MorphOracle) (text : Str)
    (hf : containsAny (pyLowerStr text) fishingPatterns = true)
    (hw : containsAny (pyLowerStr text) weatherPatterns = true) :
    (analyze oracle text).intent = chars "fishing_forecast" := by
  simp [analyze, hf]

/-- Witness for C1 at the utterance `"Клев и погода завтра"`, which
matches both a fishing pattern and a weather pattern. -/
theorem c1_witness :
    containsAny (pyLowerStr (chars "Клев и погода завтра")) fishingPatterns = true ∧
    containsAny (pyLowerStr (chars "Клев и погода завтра")) weatherPatterns = true ∧
    (analyze constOracle (chars "Клев и погода завтра")).intent =
      chars "fishing_forecast" :=
  ⟨by decide, by decide,
    c1_fishing_overrides_weather constOracle _ (by decide) (by decide)⟩

/-! ## C3 -/

/-- C3 (claim refuted by evaluation): on the utterance `"послезавтра"`
(which contains no day-count phrase) `analyze` returns time period
`tomorrow` with one day, not `day_after_tomorrow` with two: the
substring test for `завтра` at line 310 of `intent_analyzer.py` also
fires inside `послезавтра`, so the dedicated `послезавтра` branch at
line 313 is unreachable. -/
theorem c3_day_after_tomorrow_shadowed :
    (analyze constOracle (chars "послезавтра")).time_period = chars "tomorrow" ∧
    (analyze constOracle (chars "послезавтра")).days = 1 :=
  ⟨by decide, by decide⟩

/-! ## C4 -/

/-- C4 (claim refuted by evaluation): called with the country hint `BY`
against a provider that returns an empty candidate list,
`resolve_location` sends exactly one request (the hinted one) and
returns absence: the empty list returns `None` at line 60 before the
hint-removed retry of lines 67-74 can run. -/
theorem c4_no_retry_on_empty :
    resolveLocationCalls emptyProvider (chars "Лида") (some (chars "BY")) =
      [chars "Лида,BY"] ∧
    resolveLocation emptyProvider (chars "Лида") (some (chars "BY")) = none :=
  ⟨by decide, rfl⟩

/-! ## C6 -/

/-- C6: `resolve_location` is total with respect to expected failures:
its catch-all handler always yields a plain optional result, and a
network error, a non-200 status, or a malformed (unparseable) 200
payload each produce absence, never a propagated exception. -/
theorem c6_total_error_handling (provider : GeoProvider) (query : Str)
    (hint : Option Str) :
    resolveLocationRun provider query hint =
      Except.ok (resolveLocation provider query hint) ∧
    (provider (searchQuery query hint) = ProviderResp.netErr →
      resolveLocation provider query hint = none) ∧
    (∀ status json, provider (searchQuery query hint) = ProviderResp.resp status json →
      status ≠ 200 → resolveLocation provider query hint = none) ∧
    (provider (searchQuery query hint) = ProviderResp.resp 200 (Except.error ()) →
      resolveLocation provider query hint = none) := by
  refine ⟨?_, ?_, ?_, ?_⟩
  · cases h : (resolveLocationAux provider query hint).1 <;>
      simp [resolveLocationRun, resolveLocation, h]
  · intro hp
    simp [resolveLocation, resolveLocationAux, hp]
  · intro status json hp hne
    simp [resolveLocation, resolveLocationAux, hp, hne]
  · intro hp
    simp [resolveLocation, resolveLocationAux, hp]

/-- Witness for C6: a network error on the (hint-less) request for
`Лида` yields absence. -/
theorem c6_witness :
    netErrProvider (searchQuery (chars "Лида") none) = ProviderResp.netErr ∧
    resolveLocation netErrProvider (chars "Лида") none = none :=
  ⟨rfl, (c6_total_error_handling netErrProvider (chars "Лида") none).2.1 rfl⟩

/-! ## C10 -/

/-- Every `resolve_location` call sends the built search string first. -/
theorem resolveLocationCalls_head (provider : GeoProvider) (query : Str)
    (hint : Option Str) :
    ∃ rest, resolveLocationCalls provider query hint =
      searchQuery query hint :: rest := by
  simp only [resolveLocationCalls, resolveLocationAux]
  repeat' split
  all_goals exact ⟨_, rfl⟩

/-- C10: for every query whose cleaned lower-cased form is in the
hard-coded popular-city table, `resolve_location` called with no country
hint injects that city's country code itself: the first provider search
string is the cleaned query with `,<code>` appended, and the whole call
behaves exactly as if the caller had supplied that hint. -/
theorem c10_popular_city_hint_injection (provider : GeoProvider) (query : Str)
    (code : Str)
    (h : List.lookup (pyLowerStr (cleanLocationQuery query)) popularWithCountry =
      some code) :
    (resolveLocationCalls provider query none).head? =
      some (cleanLocationQuery query ++ ',' :: code) ∧
    resolveLocationAux provider query none =
      resolveLocationAux provider query (some code) := by
  have he : effectiveHint query none = some code := by
    simp [effectiveHint, h]
  have he2 : effectiveHint query (some code) = some code := rfl
  have hs : searchQuery query none = cleanLocationQuery query ++ ',' :: code := by
    simp [searchQuery, he]
  have hs2 : searchQuery query (some code) =
      cleanLocationQuery query ++ ',' :: code := by
    simp [searchQuery, he2]
  constructor
  · obtain ⟨rest, hr⟩ := resolveLocationCalls_head provider query none
    rw [hr, hs]
    rfl
  · unfold resolveLocationAux
    rw [he, he2, hs, hs2]

/-- Witness for C10 at the query `Минск` (table entry `BY`). -/
theorem c10_witness :
    List.lookup (pyLowerStr (cleanLocationQuery (chars "Минск")))
      popularWithCountry = some (chars "BY") ∧
    (resolveLocationCalls netErrProvider (chars "Минск") none).head? =
      some (cleanLocationQuery (chars "Минск") ++ ',' :: chars "BY") :=
  ⟨by decide,
    (c10_popular_city_hint_injection netErrProvider (chars "Минск") (chars "BY")
      (by decide)).1⟩

/-! ## C5 -/

/-- C5: when the provider answers a `resolve_location` request with a
non-empty candidate list none of whose candidates scores against the
cleaned query, the first returned candidate is produced rather than
absence; when the candidate list is empty, the result is absent. -/
theorem c5_fallback_first_candidate (provider : GeoProvider) (query : Str)
    (hint : Option Str) :
    (∀ c rest, provider (searchQuery query hint) =
        ProviderResp.resp 200 (Except.ok (c :: rest)) →
      (∀ x ∈ c :: rest,
        scoresMatch (pyLowerStr (cleanLocationQuery query)) x = false) →
      resolveLocation provider query hint = some (formatLocationResult c)) ∧
    (provider (searchQuery query hint) = ProviderResp.resp 200 (Except.ok []) →
      resolveLocation provider query hint = none) := by
  constructor
  · intro c rest hp hscore
    have hfind : (c :: rest).find?
        (scoresMatch (pyLowerStr (cleanLocationQuery query))) = none := by
      rw [List.find?_eq_none]
      intro x hx
      simp [hscore x hx]
    have hbm : findBestMatch (c :: rest) (cleanLocationQuery query) =
        some (formatLocationResult c) := by
      unfold findBestMatch
      rw [hfind]
    simp [resolveLocation, resolveLocationAux, hp, hbm]
  · intro hp
    simp [resolveLocation, resolveLocationAux, hp]

/-- A provider answering every request with a single candidate (`Paris`)
that does not score against the query `Лида`. -/
def parisProvider : GeoProvider := fun _ =>
  .resp 200 (.ok [{ name := some (chars "Paris"),
                    localRu := some (chars "Париж"),
                    lat := some 48.85, lon := some 2.35,
                    country := some (chars "FR"), state := none }])

/-- Witness for C5: with no scoring candidate the first candidate is
returned; with an empty candidate list the result is absent. -/
theorem c5_witness :
    resolveLocation parisProvider (chars "Лида") none =
      some (formatLocationResult
        { name := some (chars "Paris"), localRu := some (chars "Париж"),
          lat := some 48.85, lon := some 2.35,
          country := some (chars "FR"), state := none }) ∧
    resolveLocation emptyProvider (chars "Unknownplacexyz") none = none :=
  ⟨(c5_fallback_first_candidate parisProvider (chars "Лида") none).1 _ []
      rfl (by decide),
    (c5_fallback_first_candidate emptyProvider (chars "Unknownplacexyz") none).2
      rfl⟩

/-! ## C7 -/

/-- Documented behavior of the external pymorphy3 analyzer assumed by
C7: every parse it returns carries a non-empty normal form whose first
character is a cased letter (pymorphy3 normal forms are lower-case
dictionary words). -/
def WellFormedParses (oracle : MorphOracle) : Prop :=
  ∀ w ps p, oracle w = .ok ps → p ∈ ps →
    ∃ c cs, p.normalForm = c :: cs ∧ pyIsUpperChar (pyUpperChar c) = true

/-- C7: `to_nominative` never raises — its handler always produces a
plain string — and the silent identity fallback is the contract: when
the analyzer raises, when it returns an empty parse list, when the
word's normal form already equals the word (up to case, the unknown- or
already-normal-word case), and in fact on every raise path of the body,
the input word is returned unchanged; moreover, for a well-formed
analyzer, an input word starting with an uppercase letter yields an
output starting with an uppercase letter. -/
theorem c7_normalize_total_preserves_case (oracle : MorphOracle) (word : Str) :
    toNominativeRun oracle word = Except.ok (toNominative oracle word) ∧
    (∀ e, oracle word = .error e → toNominative oracle word = word) ∧
    (oracle word = .ok [] → toNominative oracle word = word) ∧
    (∀ p ps, oracle word = .ok (p :: ps) →
      pyLowerStr p.normalForm = pyLowerStr word →
      toNominative oracle word = word) ∧
    (∀ e, toNominativeBody oracle word = .error e →
      toNominative oracle word = word) ∧
    (WellFormedParses oracle → ∀ c cs, word = c :: cs → pyIsUpperChar c = true →
      ∃ d ds, toNominative oracle word = d :: ds ∧ pyIsUpperChar d = true) := by
  refine ⟨?_, ?_, ?_, ?_, ?_, ?_⟩
  · cases h : toNominativeBody oracle word <;>
      simp [toNominativeRun, toNominative, h]
  · intro e h
    simp [toNominative, toNominativeBody, h]
  · intro h
    simp [toNominative, toNominativeBody, h]
  · intro p ps h heq
    simp [toNominative, toNominativeBody, h, heq]
  · intro e h
    simp [toNominative, h]
  · intro hwf c cs hw hc
    subst hw
    unfold toNominative toNominativeBody
    rcases ho : oracle (c :: cs) with e | ps
    · exact ⟨c, cs, rfl, hc⟩
    · rcases ps with _ | ⟨p, rest⟩
      · exact ⟨c, cs, rfl, hc⟩
      · obtain ⟨d, ds, hnf, hd⟩ := hwf _ _ p ho (List.mem_cons_self _ _)
        by_cases heq : pyLowerStr p.normalForm = pyLowerStr (c :: cs)
        · simp only [ne_eq, heq, not_true_eq_false, if_false]
          exact ⟨c, cs, rfl, hc⟩
        · simp only [ne_eq, heq, not_false_eq_true, if_true, hc]
          refine ⟨pyUpperChar d, ds.map pyLowerChar, ?_, hd⟩
          rw [hnf]
          rfl

/-- An analyzer that always raises. -/
def failOracle : MorphOracle := fun _ => .error ()

/-- An analyzer for which every word is unknown (empty parse list). -/
def emptyParseOracle : MorphOracle := fun _ => .ok []

/-- Witness for C7: a raising analyzer and an empty-parse analyzer each
return the input unchanged, and the concrete oracle maps `Лиде` to
normal form `лида` with the capitalization restored. -/
theorem c7_witness :
    toNominative failOracle (chars "Лиде") = chars "Лиде" ∧
    toNominative emptyParseOracle (chars "Лиде") = chars "Лиде" ∧
    (∃ d ds, toNominative constOracle (chars "Лиде") = d :: ds ∧
      pyIsUpperChar d = true) ∧
    toNominative constOracle (chars "Лиде") = chars "Лида" := by
  have hwf : WellFormedParses constOracle := by
    intro w ps p h hp
    injection h with h1
    subst h1
    rw [List.mem_singleton] at hp
    subst hp
    exact ⟨'л', chars "ида", rfl, by decide⟩
  refine ⟨(c7_normalize_total_preserves_case failOracle (chars "Лиде")).2.1 () rfl,
    (c7_normalize_total_preserves_case emptyParseOracle (chars "Лиде")).2.2.1 rfl,
    (c7_normalize_total_preserves_case constOracle (chars "Лиде")).2.2.2.2.2 hwf
      'Л' (chars "иде") rfl (by decide),
    by decide⟩

/-! ## C9 -/

/-- Documented behavior of the external pymorphy3 analyzer assumed by
C9: normal forms are stable — parsing any case-variant of a word's
normal form yields a parse whose own normal form is that word again (up
to case). -/
def IdemOracle (oracle : MorphOracle) : Prop :=
  ∀ w p ps, oracle w = .ok (p :: ps) →
    ∀ v, pyLowerStr v = pyLowerStr p.normalForm →
      ∃ q qs, oracle v = .ok (q :: qs) ∧
        pyLowerStr q.normalForm = pyLowerStr v

/-- C9: for a stable analyzer, `to_nominative` is idempotent: applying
it to an already-normalized word returns the word unchanged. -/
theorem c9_normalize_idempotent (oracle : MorphOracle)
    (hI : IdemOracle oracle) (w : Str) :
    toNominative oracle (toNominative oracle w) = toNominative oracle w := by
  rcases ho : oracle w with e | ps
  · have hid : toNominative oracle w = w := by
      simp [toNominative, toNominativeBody, ho]
    rw [hid]
    exact hid
  · rcases ps with _ | ⟨p, rest⟩
    · have hid : toNominative oracle w = w := by
        simp [toNominative, toNominativeBody, ho]
      rw [hid]
      exact hid
    · by_cases heq : pyLowerStr p.normalForm = pyLowerStr w
      · have hid : toNominative oracle w = w := by
          simp [toNominative, toNominativeBody, ho, heq]
        rw [hid]
        exact hid
      · cases w with
        | nil =>
          have hid : toNominative oracle [] = [] := by
            simp [toNominative, toNominativeBody, ho, heq]
          rw [hid]
          exact hid
        | cons c cs =>
          have hr : toNominative oracle (c :: cs) =
              (if pyIsUpperChar c = true then capitalizePy p.normalForm
               else p.normalForm) := by
            by_cases hu : pyIsUpperChar c = true
            · simp [toNominative, toNominativeBody, ho, heq, hu]
            · simp [toNominative, toNominativeBody, ho, heq, hu]
          have hlow : pyLowerStr (toNominative oracle (c :: cs)) =
              pyLowerStr p.normalForm := by
            rw [hr]
            by_cases hu : pyIsUpperChar c = true
            · simp [hu, pyLowerStr_capitalizePy]
            · simp [hu]
          obtain ⟨q, qs, hoq, hql⟩ :=
            hI (c :: cs) p rest ho (toNominative oracle (c :: cs)) hlow
          set r := toNominative oracle (c :: cs) with hrdef
          simp [toNominative, toNominativeBody, hoq, hql]

/-- Witness for C9: the concrete oracle is stable, and normalizing
`Лиде` twice equals normalizing it once (both give `Лида`). -/
theorem c9_witness :
    IdemOracle constOracle ∧
    toNominative constOracle (toNominative constOracle (chars "Лиде")) =
      toNominative constOracle (chars "Лиде") ∧
    toNominative constOracle (chars "Лиде") = chars "Лида" := by
  have hI : IdemOracle constOracle := by
    intro w p ps h v hv
    injection h with h1
    injection h1 with hp hps
    subst hp
    refine ⟨⟨chars "лида"⟩, [], rfl, ?_⟩
    rw [hv]
  exact ⟨hI, c9_normalize_idempotent constOracle hI (chars "Лиде"), by decide⟩

/-! ## C2 -/

/-- A digit character is not whitespace. -/
theorem not_ws_of_digit {c : Char} (h : isDigitChar c = true) :
    isWsChar c = false := by
  cases hw : isWsChar c
  · rfl
  · exfalso
    have hm : c ∈ wsChars := by
      simpa [isWsChar] using hw
    simp only [wsChars, List.mem_cons, List.not_mem_nil, or_false] at hm
    rcases hm with rfl | rfl | rfl | rfl | rfl | rfl <;>
      exact absurd h (by decide)

theorem dropWhile_cons_false {p : Char → Bool} {x : Char} (xs : Str)
    (hx : p x = false) : (x :: xs).dropWhile p = x :: xs := by
  simp [List.dropWhile_cons, hx]

theorem takeWhile_all_append {p : Char → Bool} (xs : Str) (y : Char) (ys : Str)
    (hall : ∀ x ∈ xs, p x = true) (hy : p y = false) :
    (xs ++ y :: ys).takeWhile p = xs ∧ (xs ++ y :: ys).dropWhile p = y :: ys := by
  induction xs with
  | nil =>
    simp [List.takeWhile_cons, List.dropWhile_cons, hy]
  | cons a as ih =>
    have ha : p a = true := hall a (List.mem_cons_self _ _)
    have ih2 := ih fun x hx => hall x (List.mem_cons_of_mem _ hx)
    simp [List.cons_append, List.takeWhile_cons, List.dropWhile_cons, ha,
      ih2.1, ih2.2]

/-- One step of the leftmost-position search for the plain day-count
regex. -/
theorem searchDays2_cons (c : Char) (t : Str) :
    searchDays2 (c :: t) =
      match days2At (c :: t) with
      | some n => some n
      | none => searchDays2 t := rfl

/-- The scanner for `на\s+(\d+)\s+дн[еяя]` succeeds on the phrase
`на <digits> дней`, capturing the digits. -/
theorem searchDays2_phrase (ds : Str) (h1 : ds ≠ [])
    (h2 : ∀ c ∈ ds, isDigitChar c = true) :
    searchDays2 ('н' :: 'а' :: ' ' :: (ds ++ (' ' :: 'д' :: 'н' :: 'е' :: 'й' :: []))) =
      some (digitsVal ds) := by
  obtain ⟨d, ds', rfl⟩ := List.exists_cons_of_ne_nil h1
  have hd0 : isDigitChar d = true := h2 d (List.mem_cons_self _ _)
  have hA : days2At
      ('н' :: 'а' :: ' ' :: ((d :: ds') ++ (' ' :: 'д' :: 'н' :: 'е' :: 'й' :: []))) =
      some (digitsVal (d :: ds')) := by
    show daysTail (' ' :: ((d :: ds') ++ (' ' :: 'д' :: 'н' :: 'е' :: 'й' :: []))) =
      some (digitsVal (d :: ds'))
    have e1 : wsPlus (' ' :: ((d :: ds') ++ (' ' :: 'д' :: 'н' :: 'е' :: 'й' :: []))) =
        some ((d :: ds') ++ (' ' :: 'д' :: 'н' :: 'е' :: 'й' :: [])) := by
      show some (((d :: ds') ++ (' ' :: 'д' :: 'н' :: 'е' :: 'й' :: [])).dropWhile isWsChar) = _
      rw [List.cons_append, dropWhile_cons_false _ (not_ws_of_digit hd0),
        ← List.cons_append]
    have e2 := takeWhile_all_append (p := isDigitChar) (d :: ds') ' '
      ('д' :: 'н' :: 'е' :: 'й' :: []) h2 (by decide)
    have e3 : digitsPlus ((d :: ds') ++ (' ' :: 'д' :: 'н' :: 'е' :: 'й' :: [])) =
        some (digitsVal (d :: ds'), ' ' :: 'д' :: 'н' :: 'е' :: 'й' :: []) := by
      unfold digitsPlus
      rw [e2.1, e2.2]
      rfl
    unfold daysTail
    rw [e1]
    simp only [Option.some_bind]
    rw [e3]
    simp only [Option.some_bind]
    rfl
  rw [searchDays2_cons, hA]

/-- `_extract_time_period` never reports more than ten days: both
day-count regexes clamp with `min(..., 10)` and the marker branches use
the constants 1, 2, 7, 2. -/
theorem extractTimePeriod_days_le (text : Str) :
    (extractTimePeriod text).days ≤ 10 := by
  simp only [extractTimePeriod]
  split
  · exact Nat.min_le_right _ _
  · split
    · exact Nat.min_le_right _ _
    · split_ifs <;> simp

/-- Digit strings are unchanged by lower-casing. -/
theorem map_pyLower_digits (ds : Str) (h : ∀ c ∈ ds, isDigitChar c = true) :
    ds.map pyLowerChar = ds := by
  rw [List.map_congr_left fun x hx => pyLowerChar_of_digit (h x hx)]
  exact List.map_id ds

/-- C2 counterexample: on the utterance `на 0 дней` the reported day
count is 0, outside the range `[1, 10]` claimed for `day_count` — the
clamp `min(int(...), 10)` at line 331 has no lower bound. -/
theorem c2_counterexample :
    (analyze constOracle (chars "на 0 дней")).days = 0 := by decide

/-- C2 (amended): for every utterance, `analyze` reports `day_count` at
most 10; and for every day-count phrase `на <digits> дней` the reported
day count is exactly `min(N, 10)` where `N` is the numeral's value — so
`day_count = N` for `N` in `[1, 10]` and `10` for `N > 10`, but `N = 0`
yields `0`: the clamp is upper-only. -/
theorem c2_day_count_amended :
    (∀ (oracle : MorphOracle) (text : Str), (analyze oracle text).days ≤ 10) ∧
    (∀ (oracle : MorphOracle) (ds : Str), ds ≠ [] →
      (∀ c ∈ ds, isDigitChar c = true) →
      (analyze oracle (chars "на " ++ (ds ++ chars " дней"))).days =
        min (digitsVal ds) 10) := by
  constructor
  · intro oracle text
    have h := extractTimePeriod_days_le (pyLowerStr text)
    simpa [analyze] using h
  · intro oracle ds h1 h2
    have hlow : pyLowerStr (chars "на " ++ (ds ++ chars " дней")) =
        chars "на " ++ (ds ++ chars " дней") := by
      simp only [pyLowerStr, List.map_append]
      rw [map_pyLower_digits ds h2]
      rw [show List.map pyLowerChar (chars "на ") = chars "на " by decide]
      rw [show List.map pyLowerChar (chars " дней") = chars " дней" by decide]
    have hs2 : searchDays2 (chars "на " ++ (ds ++ chars " дней")) =
        some (digitsVal ds) := searchDays2_phrase ds h1 h2
    have hti : (extractTimePeriod (chars "на " ++ (ds ++ chars " дней"))).days =
        min (digitsVal ds) 10 := by
      simp only [extractTimePeriod, hs2]
    simp only [analyze, hlow, hti]

/-- Witness for C2 at the phrase `на 3 дней` (day count 3). -/
theorem c2_witness :
    (analyze constOracle (chars "на " ++ (chars "3" ++ chars " дней"))).days =
      min (digitsVal (chars "3")) 10 ∧
    min (digitsVal (chars "3")) 10 = 3 :=
  ⟨c2_day_count_amended.2 constOracle (chars "3") (by decide) (by decide),
    by decide⟩

/-! ## C8 -/

/-- C8 counterexample: `Погода`, `Для` and `Рыба` are all single
capitalized words of length > 2 that are not day-of-week or month
names, yet `extract` returns absence for `Погода` (its lower-cased form
is in the extractor's stop-word set) and for `Для` (its lower-cased
form is in the trailing-preposition set), and for `Рыба` the intent is
`fishing_forecast`, not `weather` (it matches a fishing pattern). -/
theorem c8_counterexample :
    extractLocation constOracle (chars "Погода") = none ∧
    extractLocation constOracle (chars "Для") = none ∧
    extractLocation constOracle (chars "Рыба") =
      some (toNominative constOracle (chars "Рыба")) ∧
    (analyze constOracle (chars "Рыба")).intent = chars "fishing_forecast" :=
  ⟨by decide, by decide, by decide, by decide⟩

/-- C8 (amended): for every utterance consisting of a single capitalized
word of length > 2 (no whitespace, no surrounding punctuation, not a
day-of-week or month name) whose lower-cased form is neither in the
extractor's stop-word set nor in its trailing-preposition set, and whose
lower-cased text matches no fishing-lexicon pattern, `extract` returns
that word after morphological normalization and `analyze` returns intent
`weather`. -/
theorem c8_single_word_amended (oracle : MorphOracle) (text : Str)
    (hsplit : pySplitWs text = [text])
    (hstrip : pyStripPunct text = text)
    (hlen : 2 < text.length)
    (hrm : removeWords.contains (pyLowerStr text) = false)
    (hend : endWords.contains (pyLowerStr text) = false)
    (hcap : ∃ c cs, text = c :: cs ∧ pyIsUpperChar c = true)
    (hfish : containsAny (pyLowerStr text) fishingPatterns = false) :
    extractLocation oracle text = some (toNominative oracle text) ∧
    (analyze oracle text).intent = chars "weather" := by
  obtain ⟨c, cs, rfl, hc⟩ := hcap
  have hj : joinSpace [c :: cs] = c :: cs := by
    simp [joinSpace, List.intercalate]
  have hext : extractLocation oracle (c :: cs) =
      some (toNominative oracle (c :: cs)) := by
    simp only [extractLocation, hsplit, List.filterMap_cons, List.filterMap_nil,
      hstrip, hrm, Bool.false_eq_true, if_false, List.isEmpty_cons, hj, hsplit,
      List.getLast?_singleton, hend, hc, if_true]
  refine ⟨hext, ?_⟩
  cases hcw : containsAny (pyLowerStr (c :: cs)) weatherPatterns
  · simp [analyze, hfish, hcw, hext]
  · simp [analyze, hfish, hcw]

/-- Witness for C8 at the utterance `Лида` (the oracle returns it
unchanged: `лида` is already its normal form). -/
theorem c8_witness :
    extractLocation constOracle (chars "Лида") =
      some (toNominative constOracle (chars "Лида")) ∧
    (analyze constOracle (chars "Лида")).intent = chars "weather" ∧
    toNominative constOracle (chars "Лида") = chars "Лида" := by
  have h := c8_single_word_amended constOracle (chars "Лида") (by decide)
    (by decide) (by decide) (by decide) (by decide)
    ⟨'Л', chars "ида", rfl, by decide⟩ (by decide)
  exact ⟨h.1, h.2, by decide⟩
